import Mathlib

/-!
Verification of the process-supervision core of merc-py
(src/merc/run_process.py, the streaming variant, which the spec adopts as
primary; the buffering twin src/run_process.py shares the same watchdog and
kill logic).

Shallow embedding conventions:
* Machine floats are modelled as exact rationals: the watchdog accumulates
  user time in steps of 1/10 second (the code adds the literal 0.1 each tick)
  and memory samples are rss bytes divided by 1024 twice, exactly as in
  enforce_limits.
* The watchdog thread is modelled as a function over a finite trace of per-tick
  observations: at each loop iteration the code first reads proc.returncode
  (trace end = returncode became non-None), then samples memory via psutil,
  which may raise psutil.NoSuchProcess (observation TickObs.gone, caught by the
  except clause around the loop).
* OS process-tree primitives (psutil) are external collaborators per the spec;
  a KillScenario records the snapshot children(recursive=True) returned and
  which processes vanished between listing and the kill call (raising
  NoSuchProcess inside the per-process try of kill_all).
-/

/-- Running totals owned by the watchdog: self._user_time and
self._max_memory_used, both initialized to 0 in RunProcess.__init__. -/
structure LimitState where
  userTime : ℚ
  maxMemoryUsed : ℚ
deriving Repr, DecidableEq

/-- The typed limit failures raised by enforce_limits: TimeExceededError and
MemoryExceededError, each carrying the tool name, the measured value and the
configured ceiling, exactly the constructor arguments in the source. -/
inductive LimitError where
  | timeExceeded (name : String) (value : ℚ) (maxTime : ℚ)
  | memoryExceeded (name : String) (value : ℚ) (maxMemory : ℚ)
deriving Repr, DecidableEq

/-- Snapshot of the process tree at the moment kill_all runs: the root pid,
the list returned by process.children(recursive=True) (all transitive
descendants), and the subset of those that vanish between the listing and the
individual p.kill() call (the race the per-process try/except tolerates). -/
structure KillScenario where
  pid : ℕ
  descendants : List ℕ
  vanished : List ℕ
deriving Repr, DecidableEq

/-- What kill_all did: the full target list (descendants plus the root, in the
order the code builds it), which targets received the kill signal, which were
tolerated because they raised NoSuchProcess, and the still-alive list returned
by psutil.wait_procs, asserted empty by the final assert. -/
structure KillOutcome where
  targets : List ℕ
  signaled : List ℕ
  tolerated : List ℕ
  alive : List ℕ
deriving Repr, DecidableEq

/-- Modelled from the psutil contract the spec lists as an external
collaborator: wait_procs called without a timeout blocks until every process
in the list has exited, so the returned still-alive component is empty. -/
def wait_procs (children : List ℕ) : List ℕ × List ℕ := (children, [])

/-- Embedding of kill_all from src/merc/run_process.py: children :=
process.children(recursive=True) with the root appended; for each p the code
tries p.kill() and swallows NoSuchProcess; then wait_procs blocks until all
are dead and the result is asserted to have no survivors. -/
def kill_all (sc : KillScenario) : KillOutcome :=
  let children := sc.descendants ++ [sc.pid]
  let signaled := children.filter (fun p => decide (p ∉ sc.vanished))
  let tolerated := children.filter (fun p => decide (p ∈ sc.vanished))
  let w := wait_procs children
  { targets := children, signaled := signaled, tolerated := tolerated,
    alive := w.2 }

/-- One observation made by a watchdog loop iteration: either a memory sample
(rss in bytes, as returned by process.memory_info) or the NoSuchProcess
exception raised because the tool finished before the sample. -/
inductive TickObs where
  | sample (rss : ℚ)
  | gone
deriving Repr, DecidableEq

/-- Result of one body of the while loop in enforce_limits: either the loop
continues with the updated totals, or a limit fired, in which case kill_all
ran and one of the typed errors was raised; the recorded state carries the
totals observable at the raise. -/
inductive TickOutcome where
  | cont (st : LimitState)
  | fire (kill : KillOutcome) (err : LimitError) (st : LimitState)
deriving Repr, DecidableEq

/-- The limit totals as left by a tick, whichever way it ended. -/
def TickOutcome.state : TickOutcome → LimitState
  | .cont st => st
  | .fire _ _ st => st

/-- One iteration of the while loop of enforce_limits, translated line by
line: sample memory, update the running peak with max, check the memory
ceiling first (kill then raise MemoryExceededError), then check the time
ceiling (kill then raise TimeExceededError), and only afterwards add 0.1 to
the accumulated user time before sleeping. -/
def enforceTick (tool : String) (maxTime maxMemory : ℚ) (ksc : KillScenario)
    (st : LimitState) (rss : ℚ) : TickOutcome :=
  if max st.maxMemoryUsed (rss / 1024 / 1024) > maxMemory then
    .fire (kill_all ksc)
      (.memoryExceeded tool (max st.maxMemoryUsed (rss / 1024 / 1024))
        maxMemory)
      ⟨st.userTime, max st.maxMemoryUsed (rss / 1024 / 1024)⟩
  else if st.userTime > maxTime then
    .fire (kill_all ksc) (.timeExceeded tool st.userTime maxTime)
      ⟨st.userTime, max st.maxMemoryUsed (rss / 1024 / 1024)⟩
  else
    .cont ⟨st.userTime + 1 / 10, max st.maxMemoryUsed (rss / 1024 / 1024)⟩

/-- Terminal state of the watchdog thread: the loop exited because
proc.returncode was set or NoSuchProcess was caught (finished), or a limit
fired after killing the tree. -/
inductive WatchdogOutcome where
  | finished (st : LimitState)
  | limitExceeded (kill : KillOutcome) (err : LimitError)
deriving Repr, DecidableEq

/-- A full run of the watchdog: the successive post-tick totals (one entry
per executed loop body) and the terminal outcome. -/
structure WatchdogRun where
  states : List LimitState
  outcome : WatchdogOutcome
deriving Repr, DecidableEq

/-- The while loop of enforce_limits over a finite observation trace. An
empty trace means proc.returncode was already non-None; a gone observation is
the NoSuchProcess raised by the sample and caught by the surrounding except,
ending the thread normally. -/
def enforce_limits (tool : String) (maxTime maxMemory : ℚ)
    (ksc : KillScenario) : LimitState → List TickObs → WatchdogRun
  | st, [] => ⟨[], .finished st⟩
  | st, .gone :: _ => ⟨[], .finished st⟩
  | st, .sample rss :: rest =>
    match enforceTick tool maxTime maxMemory ksc st rss with
    | .cont st' =>
      let r := enforce_limits tool maxTime maxMemory ksc st' rest
      ⟨st' :: r.states, r.outcome⟩
    | .fire k e stObs => ⟨[stObs], .limitExceeded k e⟩

/-- Number the watchdog observations so the supervisor model can report how
many polls ran (zero when no watchdog was started). -/
def WatchdogRun.pollCount (w : WatchdogRun) : ℕ := w.states.length

/-- Python rstrip with the newline argument, as applied by the output relay
to each line before the callback: drop every trailing newline character. -/
def rstripNl (l : List Char) : List Char :=
  (l.reverse.dropWhile (fun c => c = '\n')).reverse

/-- Iteration over the text-mode stdout stream of the child, as done by the
for loop over proc.stdout: yield maximal chunks ending in a newline, plus a
final chunk without one if the stream does not end in a newline. -/
def splitLinesAux : List Char → List Char → List (List Char)
  | acc, [] => if acc = [] then [] else [acc]
  | acc, c :: cs =>
    if c = '\n' then (acc ++ ['\n']) :: splitLinesAux [] cs
    else splitLinesAux (acc ++ [c]) cs

/-- The sequence of lines the relay reads from the merged output stream. -/
def pySplitLines (s : List Char) : List (List Char) := splitLinesAux [] s

/-- The text a child emits when it prints the given lines one per line: each
print appends a newline to its argument. -/
def writeLines : List (List Char) → List Char
  | [] => []
  | l :: rest => l ++ '\n' :: writeLines rest

/-- The relay loop of RunProcess.__init__: for each line of proc.stdout,
call read_stdout on the newline-stripped line. The callback is external
caller code; cbFNF says whether its i-th invocation raises
FileNotFoundError, which aborts the loop and propagates. Returns the
arguments of the invocations that took place and whether the loop was
aborted by such an exception. -/
def relay (cbFNF : ℕ → Bool) : ℕ → List (List Char) → List (List Char) × Bool
  | _, [] => ([], false)
  | i, l :: rest =>
    let arg := rstripNl l
    if cbFNF i then ([arg], true)
    else
      let r := relay cbFNF (i + 1) rest
      (arg :: r.1, r.2)

/-- A callback that never raises (the usual case, e.g. appending to a list as
in the tests). -/
def cbNever : ℕ → Bool := fun _ => false

/-- The failure taxonomy of RunProcess.__init__. ToolNotFoundError is raised
by the handler except FileNotFoundError that wraps the whole constructor
body; a limit failure is the watchdog exception re-raised by future.result,
recorded together with the kill that preceded it; ToolRuntimeError carries
the tool, the arguments and the nonzero return code interpolated into its
message. -/
inductive RunError where
  | toolNotFound (name : String)
  | limit (kill : KillOutcome) (err : LimitError)
  | toolRuntime (tool : String) (arguments : List String) (returncode : ℤ)
deriving Repr, DecidableEq

/-- The attributes of a successfully constructed RunProcess object that the
spec's ExecutionResult reads: returncode (a class attribute initialized to -1
and, in this streaming variant, never reassigned), the user_time property
(self._user_time) and the max_memory property (self._max_memory_used). -/
structure RunSuccess where
  returncode : ℤ
  userTime : ℚ
  maxMemoryUsed : ℚ
deriving Repr, DecidableEq

/-- One concrete execution environment: whether Popen succeeded (spawnOk is
false when the executable does not exist and Popen raises
FileNotFoundError), the merged stdout+stderr text the child produced, the
value of proc.returncode after proc.wait, the watchdog's per-tick
observations, the wall-clock duration perf_counter() - before measured by
the supervisor around the whole execution (before is recorded prior to
Popen), and the process-tree snapshot a kill would see. -/
structure Scenario where
  spawnOk : Bool
  streamData : List Char
  returncodeFinal : ℤ
  ticks : List TickObs
  wallTime : ℚ
  ksc : KillScenario
deriving Repr, DecidableEq

/-- Verdict of one constructor call ('Run' in the spec). -/
inductive RunResult where
  | ok (r : RunSuccess)
  | error (e : RunError)
deriving Repr, DecidableEq

/-- Everything observable about one call: the verdict, the arguments of the
callback invocations that happened (in order), and how many watchdog polls
ran. -/
structure RunOutcome where
  result : RunResult
  callbackCalls : List (List Char)
  watchdogPolls : ℕ
deriving Repr, DecidableEq

/-- The watchdog thread started for a scenario: enforce_limits against the
child, with both totals initialized to 0. -/
def watchdogOf (tool : String) (maxTime maxMemory : ℚ) (sc : Scenario) :
    WatchdogRun :=
  enforce_limits tool maxTime maxMemory sc.ksc ⟨0, 0⟩ sc.ticks

/-- Embedding of RunProcess.__init__ from src/merc/run_process.py.
Control flow, in source order: record before := perf_counter(); Popen (a
FileNotFoundError here or anywhere later in the body reaches the except
clause and becomes ToolNotFoundError(tool)); start enforce_limits in the
executor; iterate over proc.stdout calling read_stdout on each
newline-stripped line; proc.wait(); future.result(), which re-raises the
watchdog's limit exception if one fired; overwrite self._user_time with the
wall-clock measurement; finally raise ToolRuntimeError if proc.returncode is
nonzero. If the relay loop is aborted by a FileNotFoundError from the
callback, future.result is never reached and the handler converts the
exception to ToolNotFoundError. self.returncode is never assigned in this
variant, so a successful construction leaves the class attribute -1. -/
def runProcess (tool : String) (arguments : List String) (cbFNF : ℕ → Bool)
    (maxTime maxMemory : ℚ) (sc : Scenario) : RunOutcome :=
  if sc.spawnOk then
    let lines := pySplitLines sc.streamData
    let rel := relay cbFNF 0 lines
    let w := watchdogOf tool maxTime maxMemory sc
    if rel.2 then
      ⟨.error (.toolNotFound tool), rel.1, w.pollCount⟩
    else
      match w.outcome with
      | .limitExceeded k e => ⟨.error (.limit k e), rel.1, w.pollCount⟩
      | .finished stF =>
        if sc.returncodeFinal ≠ 0 then
          ⟨.error (.toolRuntime tool arguments sc.returncodeFinal), rel.1,
            w.pollCount⟩
        else
          ⟨.ok ⟨-1, sc.wallTime, stF.maxMemoryUsed⟩, rel.1, w.pollCount⟩
  else
    ⟨.error (.toolNotFound tool), [], 0⟩


/-! ## Helper lemmas about the watchdog -/

/-- Componentwise order on the watchdog totals. -/
def stateLe (a b : LimitState) : Prop :=
  a.userTime ≤ b.userTime ∧ a.maxMemoryUsed ≤ b.maxMemoryUsed

lemma stateLe_refl (a : LimitState) : stateLe a a := ⟨le_refl _, le_refl _⟩

lemma stateLe_trans {a b c : LimitState} (h1 : stateLe a b)
    (h2 : stateLe b c) : stateLe a c :=
  ⟨h1.1.trans h2.1, h1.2.trans h2.2⟩

/-- A single tick never decreases either total. -/
lemma enforceTick_state_mono (tool : String) (maxTime maxMemory : ℚ)
    (ksc : KillScenario) (st : LimitState) (rss : ℚ) :
    stateLe st (enforceTick tool maxTime maxMemory ksc st rss).state := by
  unfold enforceTick
  split_ifs with h1 h2
  · exact ⟨le_refl _, le_max_left _ _⟩
  · exact ⟨le_refl _, le_max_left _ _⟩
  · refine ⟨?_, le_max_left _ _⟩
    show st.userTime ≤ st.userTime + 1 / 10
    linarith

/-- A tick always records the peak as the max of the previous peak and the
current sample, whichever way it ends. -/
lemma enforceTick_state_peak (tool : String) (maxTime maxMemory : ℚ)
    (ksc : KillScenario) (st : LimitState) (rss : ℚ) :
    (enforceTick tool maxTime maxMemory ksc st rss).state.maxMemoryUsed =
      max st.maxMemoryUsed (rss / 1024 / 1024) := by
  unfold enforceTick
  split_ifs <;> rfl

/-- When a tick fires, the kill is the one kill_all performs on the snapshot
and the raised error's measured value is the corresponding total recorded at
the raise. -/
lemma enforceTick_fire_value (tool : String) (maxTime maxMemory : ℚ)
    (ksc : KillScenario) (st : LimitState) (rss : ℚ)
    (k : KillOutcome) (e : LimitError) (stObs : LimitState)
    (h : enforceTick tool maxTime maxMemory ksc st rss = .fire k e stObs) :
    k = kill_all ksc ∧
      ((∃ v m, e = .timeExceeded tool v m ∧ v = stObs.userTime) ∨
       (∃ v m, e = .memoryExceeded tool v m ∧ v = stObs.maxMemoryUsed)) := by
  unfold enforceTick at h
  split_ifs at h with h1 h2
  · injection h with hk he hs
    subst hk; subst he; subst hs
    exact ⟨rfl, Or.inr ⟨_, _, rfl, rfl⟩⟩
  · injection h with hk he hs
    subst hk; subst he; subst hs
    exact ⟨rfl, Or.inl ⟨_, _, rfl, rfl⟩⟩

/-- The last of the successive watchdog totals, starting from the initial
state (which is also the answer when no tick ran). -/
def lastState : LimitState → List LimitState → LimitState
  | st, [] => st
  | _, s :: rest => lastState s rest

/-- Along a chain of non-decreasing totals, every entry is bounded by the
last one. -/
lemma chain_le_lastState :
    ∀ (l : List LimitState) (a : LimitState),
      List.Chain' stateLe (a :: l) → ∀ s ∈ a :: l, stateLe s (lastState a l) := by
  intro l
  induction l with
  | nil =>
    intro a _ s hs
    rcases List.mem_cons.mp hs with rfl | hs
    · exact stateLe_refl s
    · exact absurd hs (List.not_mem_nil s)
  | cons b t ih =>
    intro a hchain s hs
    have hab : stateLe a b := (List.chain'_cons.mp hchain).1
    have hrest : List.Chain' stateLe (b :: t) := (List.chain'_cons.mp hchain).2
    rcases List.mem_cons.mp hs with rfl | hs
    · exact stateLe_trans hab (ih b hrest b (by simp))
    · exact ih b hrest s hs

/-- The successive watchdog totals form a non-decreasing chain starting at
the initial state. -/
lemma enforce_limits_chain (tool : String) (maxTime maxMemory : ℚ)
    (ksc : KillScenario) :
    ∀ (ticks : List TickObs) (st : LimitState),
      List.Chain' stateLe
        (st :: (enforce_limits tool maxTime maxMemory ksc st ticks).states) := by
  intro ticks
  induction ticks with
  | nil =>
    intro st
    simp [enforce_limits]
  | cons o rest ih =>
    intro st
    cases o with
    | gone => simp [enforce_limits]
    | sample rss =>
      have hmono := enforceTick_state_mono tool maxTime maxMemory ksc st rss
      cases h : enforceTick tool maxTime maxMemory ksc st rss with
      | cont st' =>
        rw [h] at hmono
        simp only [enforce_limits, h]
        exact List.chain'_cons.mpr ⟨hmono, ih st'⟩
      | fire k e stObs =>
        rw [h] at hmono
        simp only [enforce_limits, h]
        exact List.chain'_cons.mpr ⟨hmono, List.chain'_singleton stObs⟩

/-- How the value reported at the end of the watchdog relates to the last of
its successive totals: a natural finish reports exactly the last totals, a
time error carries the last accumulated time, a memory error carries the
last peak. -/
def reportedOf (stLast : LimitState) : WatchdogOutcome → Prop
  | .finished stF => stF = stLast
  | .limitExceeded _ (.timeExceeded _ v _) => v = stLast.userTime
  | .limitExceeded _ (.memoryExceeded _ v _) => v = stLast.maxMemoryUsed

/-- The watchdog reports the last of its successive totals, in the sense of
reportedOf. -/
lemma enforce_limits_reported (tool : String) (maxTime maxMemory : ℚ)
    (ksc : KillScenario) :
    ∀ (ticks : List TickObs) (st : LimitState),
      reportedOf
        (lastState st (enforce_limits tool maxTime maxMemory ksc st ticks).states)
        (enforce_limits tool maxTime maxMemory ksc st ticks).outcome := by
  intro ticks
  induction ticks with
  | nil =>
    intro st
    simp [enforce_limits, lastState, reportedOf]
  | cons o rest ih =>
    intro st
    cases o with
    | gone => simp [enforce_limits, lastState, reportedOf]
    | sample rss =>
      cases h : enforceTick tool maxTime maxMemory ksc st rss with
      | cont st' =>
        simp only [enforce_limits, h, lastState]
        exact ih st'
      | fire k e stObs =>
        simp only [enforce_limits, h, lastState]
        rcases (enforceTick_fire_value tool maxTime maxMemory ksc st rss
          k e stObs h).2 with ⟨v, m, rfl, hv⟩ | ⟨v, m, rfl, hv⟩
        · exact hv
        · exact hv

/-- Exact characterization of when and how the time ceiling fires: from
totals whose time has not yet exceeded the ceiling, if the trace offers at
least n+1 memory samples all within the memory ceiling and n is the number
of further ticks after which the accumulated time first exceeds maxTime,
then the watchdog kills the tree and raises TimeExceededError carrying the
accumulated time at that tick. -/
lemma enforce_limits_time_fires (tool : String) (maxTime maxMemory : ℚ)
    (ksc : KillScenario) :
    ∀ (n : ℕ) (ticks : List TickObs) (st : LimitState),
      st.maxMemoryUsed ≤ maxMemory →
      (∀ o ∈ ticks, ∃ rss, o = TickObs.sample rss ∧
        rss / 1024 / 1024 ≤ maxMemory) →
      (∀ m : ℕ, m < n → st.userTime + (m : ℚ) / 10 ≤ maxTime) →
      maxTime < st.userTime + (n : ℚ) / 10 →
      n + 1 ≤ ticks.length →
      (enforce_limits tool maxTime maxMemory ksc st ticks).outcome =
        .limitExceeded (kill_all ksc)
          (.timeExceeded tool (st.userTime + (n : ℚ) / 10) maxTime) := by
  intro n
  induction n with
  | zero =>
    intro ticks st hpeak hobs _ hfire hlen
    cases ticks with
    | nil => simp at hlen
    | cons o rest =>
      obtain ⟨rss, rfl, hrss⟩ := hobs o (by simp)
      have hmem : ¬ max st.maxMemoryUsed (rss / 1024 / 1024) > maxMemory :=
        not_lt.mpr (max_le hpeak hrss)
      have htime : st.userTime > maxTime := by
        have := hfire
        simpa using this
      have htick : enforceTick tool maxTime maxMemory ksc st rss =
          .fire (kill_all ksc) (.timeExceeded tool st.userTime maxTime)
            ⟨st.userTime, max st.maxMemoryUsed (rss / 1024 / 1024)⟩ := by
        unfold enforceTick
        rw [if_neg hmem, if_pos htime]
      simp only [enforce_limits, htick]
      norm_num
  | succ n ih =>
    intro ticks st hpeak hobs hbefore hfire hlen
    cases ticks with
    | nil => simp at hlen
    | cons o rest =>
      obtain ⟨rss, rfl, hrss⟩ := hobs o (by simp)
      have hmem : ¬ max st.maxMemoryUsed (rss / 1024 / 1024) > maxMemory :=
        not_lt.mpr (max_le hpeak hrss)
      have htime : ¬ st.userTime > maxTime := by
        have h0 := hbefore 0 (Nat.succ_pos n)
        simpa using h0
      have htick : enforceTick tool maxTime maxMemory ksc st rss =
          .cont ⟨st.userTime + 1 / 10,
            max st.maxMemoryUsed (rss / 1024 / 1024)⟩ := by
        unfold enforceTick
        rw [if_neg hmem, if_neg htime]
      simp only [enforce_limits, htick]
      have hih := ih rest ⟨st.userTime + 1 / 10,
          max st.maxMemoryUsed (rss / 1024 / 1024)⟩
        (max_le hpeak hrss)
        (fun o ho => hobs o (List.mem_cons_of_mem _ ho))
        (by
          intro m hm
          have := hbefore (m + 1) (Nat.succ_lt_succ hm)
          push_cast at this ⊢
          linarith)
        (by
          push_cast at hfire ⊢
          linarith)
        (by simpa using hlen)
      rw [hih]
      have hval : st.userTime + 1 / 10 + (n : ℚ) / 10 =
          st.userTime + ((n : ℕ) + 1 : ℚ) / 10 := by
        ring
      rw [hval]
      norm_num

/-! ## Helper lemmas about the output relay -/

/-- A callback that never raises leaves the relay delivering every stripped
line, in order. -/
lemma relay_cbNever (ls : List (List Char)) :
    ∀ i, relay cbNever i ls = (ls.map rstripNl, false) := by
  induction ls with
  | nil => intro i; rfl
  | cons l rest ih =>
    intro i
    simp only [relay, cbNever, ih (i + 1), List.map_cons]
    rfl

/-- Dropping leading newline characters from a list that contains none is
the identity. -/
lemma dropWhile_no_newline (m : List Char) (h : '\n' ∉ m) :
    m.dropWhile (fun c => c = '\n') = m := by
  cases m with
  | nil => rfl
  | cons c cs =>
    have hc : c ≠ '\n' := fun hc => h (by simp [hc])
    simp [List.dropWhile, hc]

/-- Python rstrip of the newline removes exactly the trailing newline from a
line that contains no other newline. -/
lemma rstripNl_append_newline (l : List Char) (h : '\n' ∉ l) :
    rstripNl (l ++ ['\n']) = l := by
  unfold rstripNl
  rw [List.reverse_append]
  simp only [List.reverse_cons, List.reverse_nil, List.nil_append,
    List.singleton_append]
  rw [List.dropWhile_cons_of_pos (by simp)]
  rw [dropWhile_no_newline l.reverse (by simpa using h)]
  exact List.reverse_reverse l

/-- Splitting a stream that starts with a newline-free line followed by a
newline yields that line (newline kept) and the split of the remainder. -/
lemma splitLinesAux_line (s : List Char) :
    ∀ (l acc : List Char), '\n' ∉ l →
      splitLinesAux acc (l ++ '\n' :: s) =
        (acc ++ l ++ ['\n']) :: splitLinesAux [] s := by
  intro l
  induction l with
  | nil =>
    intro acc _
    simp [splitLinesAux]
  | cons c cs ih =>
    intro acc h
    have hc : c ≠ '\n' := fun hc => h (by simp [hc])
    simp only [List.cons_append, splitLinesAux, if_neg hc, List.append_eq]
    rw [ih (acc ++ [c]) (fun hm => h (by simp [hm]))]
    simp

/-- The stream produced by a child printing newline-free lines splits back
into exactly those lines, each keeping its newline. -/
lemma pySplitLines_writeLines (ls : List (List Char))
    (h : ∀ l ∈ ls, '\n' ∉ l) :
    pySplitLines (writeLines ls) = ls.map (fun l => l ++ ['\n']) := by
  induction ls with
  | nil => rfl
  | cons l rest ih =>
    have hl : '\n' ∉ l := h l (by simp)
    unfold pySplitLines at ih ⊢
    simp only [writeLines]
    rw [splitLinesAux_line (writeLines rest) l [] hl]
    rw [ih (fun m hm => h m (List.mem_cons_of_mem _ hm))]
    simp

/-- End-to-end: a relay with a quiet callback over the stream written by a
child printing newline-free lines calls the callback exactly once per line,
in order, with the newline stripped. -/
lemma relay_writeLines (ls : List (List Char)) (h : ∀ l ∈ ls, '\n' ∉ l) :
    relay cbNever 0 (pySplitLines (writeLines ls)) = (ls, false) := by
  rw [pySplitLines_writeLines ls h, relay_cbNever]
  have : (ls.map (fun l => l ++ ['\n'])).map rstripNl = ls := by
    rw [List.map_map]
    have : ∀ l ∈ ls, (rstripNl ∘ fun l => l ++ ['\n']) l = id l := by
      intro l hl
      simp only [Function.comp_apply, id_eq]
      exact rstripNl_append_newline l (h l hl)
    rw [List.map_congr_left this, List.map_id]
  rw [this]

/-! ## Claim theorems -/

/-- A small concrete process-tree snapshot used by concrete instances. -/
def ksc0 : KillScenario := ⟨1, [], []⟩

/-- Modelled from the spec: step 4 of the Watchdog tick in section 4.2 as
the claim reads it — increment the accumulated elapsed time by the polling
interval first and then, if the accumulated time exceeds the max_time
ceiling, kill the tree and raise TimeExceededError. Defined only to compare
the claimed tick order against the source tick order. -/
def enforceTickSpecOrder (tool : String) (maxTime maxMemory : ℚ)
    (ksc : KillScenario) (st : LimitState) (rss : ℚ) : TickOutcome :=
  if max st.maxMemoryUsed (rss / 1024 / 1024) > maxMemory then
    .fire (kill_all ksc)
      (.memoryExceeded tool (max st.maxMemoryUsed (rss / 1024 / 1024))
        maxMemory)
      ⟨st.userTime, max st.maxMemoryUsed (rss / 1024 / 1024)⟩
  else if st.userTime + 1 / 10 > maxTime then
    .fire (kill_all ksc)
      (.timeExceeded tool (st.userTime + 1 / 10) maxTime)
      ⟨st.userTime + 1 / 10, max st.maxMemoryUsed (rss / 1024 / 1024)⟩
  else
    .cont ⟨st.userTime + 1 / 10, max st.maxMemoryUsed (rss / 1024 / 1024)⟩

/-- C1 counterexample: the claimed per-tick order (increment, then check) is
not what the code does. With max_time = 0, after its first polling tick the
source watchdog has accumulated 1/10 of a second, strictly exceeding the
ceiling, yet the tick neither kills nor raises (it checked the ceiling
before incrementing); a tick in the claimed order fires TimeExceededError at
that very tick. -/
theorem c1_counterexample_tick_order :
    enforceTick "sleep-tool" 0 1000 ksc0 ⟨0, 0⟩ 0 = .cont ⟨1 / 10, 0⟩
    ∧ ((0 : ℚ) < 1 / 10)
    ∧ enforceTickSpecOrder "sleep-tool" 0 1000 ksc0 ⟨0, 0⟩ 0 =
        .fire (kill_all ksc0) (.timeExceeded "sleep-tool" (1 / 10) 0)
          ⟨1 / 10, 0⟩ := by
  refine ⟨?_, by norm_num, ?_⟩
  · unfold enforceTick
    norm_num
  · unfold enforceTickSpecOrder
    norm_num

/-- C1 amended: each polling tick first checks whether the accumulated time
already exceeds max_time — killing the tree and raising TimeExceededError
carrying the tool name, the accumulated time and the ceiling — and only then
increments the accumulated time by the polling interval. Consequently, for
an integer ceiling T and a child that stays within the memory ceiling and
outlives the watchdog for at least 10T+2 polls, the watchdog kills the tree
and raises TimeExceededError whose value (10T+1)/10 is the least multiple of
the polling interval exceeding T; for T = 1 that value is 1.1, at least the
claimed 1.0. -/
theorem c1_amended_time_enforcement (tool : String) (maxMemory : ℚ)
    (ksc : KillScenario) (T : ℕ) (ticks : List TickObs)
    (hmm0 : 0 ≤ maxMemory)
    (hobs : ∀ o ∈ ticks, ∃ rss, o = TickObs.sample rss ∧
      rss / 1024 / 1024 ≤ maxMemory)
    (hlen : 10 * T + 2 ≤ ticks.length) :
    (enforce_limits tool (T : ℚ) maxMemory ksc ⟨0, 0⟩ ticks).outcome =
      .limitExceeded (kill_all ksc)
        (.timeExceeded tool (((10 * T + 1 : ℕ) : ℚ) / 10) (T : ℚ))
    ∧ (T : ℚ) < ((10 * T + 1 : ℕ) : ℚ) / 10 := by
  have hbefore : ∀ m : ℕ, m < 10 * T + 1 →
      (⟨0, 0⟩ : LimitState).userTime + (m : ℚ) / 10 ≤ (T : ℚ) := by
    intro m hm
    show (0 : ℚ) + (m : ℚ) / 10 ≤ (T : ℚ)
    rw [zero_add, div_le_iff₀ (by norm_num : (0 : ℚ) < 10)]
    have hm' : m ≤ 10 * T := by omega
    have : (m : ℚ) ≤ ((10 * T : ℕ) : ℚ) := by exact_mod_cast hm'
    push_cast at this
    linarith
  have hfire : (T : ℚ) <
      (⟨0, 0⟩ : LimitState).userTime + ((10 * T + 1 : ℕ) : ℚ) / 10 := by
    show (T : ℚ) < (0 : ℚ) + ((10 * T + 1 : ℕ) : ℚ) / 10
    rw [zero_add, lt_div_iff₀ (by norm_num : (0 : ℚ) < 10)]
    push_cast
    linarith
  have hlen' : (10 * T + 1) + 1 ≤ ticks.length := by omega
  have h := enforce_limits_time_fires tool (T : ℚ) maxMemory ksc
    (10 * T + 1) ticks ⟨0, 0⟩ hmm0 hobs hbefore hfire hlen'
  constructor
  · rw [h]
    have hval : (⟨0, 0⟩ : LimitState).userTime + ((10 * T + 1 : ℕ) : ℚ) / 10 =
        ((10 * T + 1 : ℕ) : ℚ) / 10 := by
      show (0 : ℚ) + _ = _
      rw [zero_add]
    rw [hval]
  · rw [lt_div_iff₀ (by norm_num : (0 : ℚ) < 10)]
    push_cast
    linarith

/-- C1 witness: the amended theorem instantiated at max_time = 1 with twelve
in-limit samples (a child sleeping two seconds supplies about twenty): the
watchdog raises TimeExceededError with value 11/10, at least the claimed
1.0. -/
theorem c1_amended_witness :
    10 * 1 + 2 ≤ (List.replicate 12 (TickObs.sample 0)).length
    ∧ (enforce_limits "sleep-tool" ((1 : ℕ) : ℚ) 1000 ksc0 ⟨0, 0⟩
        (List.replicate 12 (TickObs.sample 0))).outcome =
      .limitExceeded (kill_all ksc0)
        (.timeExceeded "sleep-tool" (((10 * 1 + 1 : ℕ) : ℚ) / 10)
          ((1 : ℕ) : ℚ))
    ∧ (1 : ℚ) ≤ ((10 * 1 + 1 : ℕ) : ℚ) / 10 := by
  have h := c1_amended_time_enforcement "sleep-tool" 1000 ksc0 1
    (List.replicate 12 (TickObs.sample 0)) (by norm_num)
    (by
      intro o ho
      rw [List.eq_of_mem_replicate ho]
      exact ⟨0, rfl, by norm_num⟩)
    (by simp)
  exact ⟨by simp, h.1, by norm_num⟩

/-- C2: every watchdog tick updates the peak to the max of the stored peak
and the current resident-set sample (converted to MB), and as soon as that
peak exceeds max_memory the very same tick performs kill_all on the process
tree — which confirms every process dead — and raises MemoryExceededError
carrying the tool name, the measured peak and the ceiling. -/
theorem c2_memory_enforcement (tool : String) (maxTime maxMemory : ℚ)
    (ksc : KillScenario) (st : LimitState) (rss : ℚ) :
    (enforceTick tool maxTime maxMemory ksc st rss).state.maxMemoryUsed =
      max st.maxMemoryUsed (rss / 1024 / 1024)
    ∧ (max st.maxMemoryUsed (rss / 1024 / 1024) > maxMemory →
        enforceTick tool maxTime maxMemory ksc st rss =
          .fire (kill_all ksc)
            (.memoryExceeded tool (max st.maxMemoryUsed (rss / 1024 / 1024))
              maxMemory)
            ⟨st.userTime, max st.maxMemoryUsed (rss / 1024 / 1024)⟩
          ∧ (kill_all ksc).alive = []) := by
  refine ⟨enforceTick_state_peak tool maxTime maxMemory ksc st rss, ?_⟩
  intro hpeak
  constructor
  · unfold enforceTick
    rw [if_pos hpeak]
  · rfl

/-- C2 witness: a 3 MB sample against a 2 MB ceiling fires the memory error
at that tick, with the tree killed and no survivors. -/
theorem c2_memory_witness :
    max (0 : ℚ) (3 * 1024 * 1024 / 1024 / 1024) > 2
    ∧ (enforceTick "mem-tool" 5 2 ksc0 ⟨0, 0⟩ (3 * 1024 * 1024) =
        .fire (kill_all ksc0)
          (.memoryExceeded "mem-tool"
            (max (0 : ℚ) (3 * 1024 * 1024 / 1024 / 1024)) 2)
          ⟨0, max (0 : ℚ) (3 * 1024 * 1024 / 1024 / 1024)⟩
        ∧ (kill_all ksc0).alive = []) :=
  ⟨by norm_num,
   (c2_memory_enforcement "mem-tool" 5 2 ksc0 ⟨0, 0⟩ (3 * 1024 * 1024)).2
     (by norm_num)⟩

/-- C3: kill_all targets the root and every transitive descendant returned
by the recursive children listing, sends the kill signal to each target that
has not vanished, tolerates (without raising) every target that vanished
mid-kill, and its wait leaves no survivors, so the final no-survivors
assertion holds; moreover every limit fire embeds exactly this completed
kill, i.e. the tree is confirmed dead before the limit error is raised. -/
theorem c3_kill_all_tree (sc : KillScenario) :
    (kill_all sc).targets = sc.descendants ++ [sc.pid]
    ∧ (∀ p ∈ (kill_all sc).targets,
        (p ∉ sc.vanished → p ∈ (kill_all sc).signaled)
        ∧ (p ∈ sc.vanished → p ∈ (kill_all sc).tolerated))
    ∧ (kill_all sc).alive = []
    ∧ (∀ (tool : String) (maxTime maxMemory : ℚ) (st : LimitState) (rss : ℚ)
        (k : KillOutcome) (e : LimitError) (stObs : LimitState),
        enforceTick tool maxTime maxMemory sc st rss = .fire k e stObs →
        k = kill_all sc ∧ k.alive = []) := by
  refine ⟨rfl, ?_, rfl, ?_⟩
  · intro p hp
    constructor
    · intro hv
      exact List.mem_filter.mpr ⟨hp, by simpa using hv⟩
    · intro hv
      exact List.mem_filter.mpr ⟨hp, by simpa using hv⟩
  · intro tool maxTime maxMemory st rss k e stObs h
    have hk := (enforceTick_fire_value tool maxTime maxMemory sc st rss
      k e stObs h).1
    exact ⟨hk, by rw [hk]; rfl⟩

/-- C3 witness: a root with two descendants, one of which vanishes mid-kill:
the survivors list is empty, the vanished descendant is tolerated and the
live descendant is signaled. -/
theorem c3_kill_all_witness :
    (7 : ℕ) ∈ (kill_all ⟨1, [7, 9], [9]⟩).targets
    ∧ (7 : ℕ) ∉ ([9] : List ℕ)
    ∧ (7 : ℕ) ∈ (kill_all ⟨1, [7, 9], [9]⟩).signaled
    ∧ (9 : ℕ) ∈ (kill_all ⟨1, [7, 9], [9]⟩).tolerated
    ∧ (kill_all ⟨1, [7, 9], [9]⟩).alive = [] := by
  have h := c3_kill_all_tree ⟨1, [7, 9], [9]⟩
  refine ⟨by decide, by decide, ?_, ?_, h.2.2.1⟩
  · exact (h.2.1 7 (by decide)).1 (by decide)
  · exact (h.2.1 9 (by decide)).2 (by decide)

/-- Evaluation of the supervisor when the spawn succeeded and the callback
never raises: the callback receives every stripped line, the watchdog runs,
and the verdict is limit error, runtime error or success according to the
watchdog outcome and the exit code. -/
lemma runProcess_eval (tool : String) (arguments : List String)
    (maxTime maxMemory : ℚ) (sc : Scenario) (hspawn : sc.spawnOk = true) :
    runProcess tool arguments cbNever maxTime maxMemory sc =
      ⟨(match (watchdogOf tool maxTime maxMemory sc).outcome with
        | .limitExceeded k e => .error (.limit k e)
        | .finished stF =>
          if sc.returncodeFinal ≠ 0 then
            .error (.toolRuntime tool arguments sc.returncodeFinal)
          else .ok ⟨-1, sc.wallTime, stF.maxMemoryUsed⟩),
       (pySplitLines sc.streamData).map rstripNl,
       (watchdogOf tool maxTime maxMemory sc).pollCount⟩ := by
  unfold runProcess
  rw [hspawn]
  simp only [eq_self_iff_true, if_true]
  rw [relay_cbNever]
  cases h : (watchdogOf tool maxTime maxMemory sc).outcome with
  | finished stF =>
    by_cases hrc : sc.returncodeFinal ≠ 0
    · simp only [if_pos hrc]
      rfl
    · simp only [if_neg hrc]
      rfl
  | limitExceeded k e => rfl

/-- Inversion of a successful construction: the spawn succeeded, the exit
code was 0, the watchdog finished naturally, and the result object carries
the class-attribute returncode -1, the wall-clock time and the watchdog
peak. -/
lemma runProcess_ok_inv (tool : String) (arguments : List String)
    (cbFNF : ℕ → Bool) (maxTime maxMemory : ℚ) (sc : Scenario)
    (r : RunSuccess)
    (h : (runProcess tool arguments cbFNF maxTime maxMemory sc).result =
      .ok r) :
    sc.spawnOk = true ∧ sc.returncodeFinal = 0
    ∧ ∃ stF, (watchdogOf tool maxTime maxMemory sc).outcome = .finished stF
        ∧ r = ⟨-1, sc.wallTime, stF.maxMemoryUsed⟩ := by
  simp only [runProcess] at h
  split at h
  case isFalse hs => simp at h
  case isTrue hs =>
    split at h
    case isTrue hrel => simp at h
    case isFalse hrel =>
      split at h
      case h_1 k e heq => simp at h
      case h_2 stF heq =>
        split at h
        case isTrue => simp at h
        case isFalse hrc =>
          refine ⟨hs, not_not.mp hrc, stF, heq, ?_⟩
          injection h with h2
          exact h2.symm

/-- C4: the supervisor consults the watchdog outcome (future.result) before
inspecting the exit code, so when both a limit violation and a nonzero exit
code apply, the limit error is what propagates, not ToolRuntimeError. -/
theorem c4_limit_precedence (tool : String) (arguments : List String)
    (maxTime maxMemory : ℚ) (sc : Scenario) (k : KillOutcome) (e : LimitError)
    (hspawn : sc.spawnOk = true)
    (hw : (watchdogOf tool maxTime maxMemory sc).outcome = .limitExceeded k e)
    (_hrc : sc.returncodeFinal ≠ 0) :
    (runProcess tool arguments cbNever maxTime maxMemory sc).result =
      .error (.limit k e) := by
  rw [runProcess_eval tool arguments maxTime maxMemory sc hspawn]
  show (match (watchdogOf tool maxTime maxMemory sc).outcome with
        | .limitExceeded k e => RunResult.error (.limit k e)
        | .finished stF =>
          if sc.returncodeFinal ≠ 0 then
            RunResult.error (.toolRuntime tool arguments sc.returncodeFinal)
          else RunResult.ok ⟨-1, sc.wallTime, stF.maxMemoryUsed⟩) =
      RunResult.error (.limit k e)
  rw [hw]

/-- Concrete scenario for C4: the time ceiling 0 is crossed at the second
poll while the killed child reports exit code 9. -/
def sc4 : Scenario := ⟨true, [], 9, [TickObs.sample 0, TickObs.sample 0], 2, ksc0⟩

/-- C4 witness: with both the fired time limit and exit code 9 in play, the
verdict is the limit error. -/
theorem c4_limit_precedence_witness :
    (watchdogOf "limit-tool" 0 1000 sc4).outcome =
      .limitExceeded (kill_all ksc0) (.timeExceeded "limit-tool" (1 / 10) 0)
    ∧ sc4.returncodeFinal ≠ 0
    ∧ (runProcess "limit-tool" [] cbNever 0 1000 sc4).result =
        .error (.limit (kill_all ksc0)
          (.timeExceeded "limit-tool" (1 / 10) 0)) := by
  have hw : (watchdogOf "limit-tool" 0 1000 sc4).outcome =
      .limitExceeded (kill_all ksc0) (.timeExceeded "limit-tool" (1 / 10) 0) := by
    norm_num [watchdogOf, enforce_limits, enforceTick, sc4]
  exact ⟨hw, by decide,
    c4_limit_precedence "limit-tool" [] 0 1000 sc4 (kill_all ksc0)
      (.timeExceeded "limit-tool" (1 / 10) 0) rfl hw (by decide)⟩

/-- C5: for a child that writes the given newline-free lines one per line
and a callback that does not raise, the callback is invoked exactly once per
line, in the order written, each argument being the line with its trailing
newline stripped — no line duplicated or lost. -/
theorem c5_callback_order (tool : String) (arguments : List String)
    (maxTime maxMemory : ℚ) (sc : Scenario) (ls : List (List Char))
    (hnl : ∀ l ∈ ls, '\n' ∉ l)
    (hstream : sc.streamData = writeLines ls)
    (hspawn : sc.spawnOk = true) :
    (runProcess tool arguments cbNever maxTime maxMemory sc).callbackCalls = ls
    ∧ (runProcess tool arguments cbNever maxTime maxMemory
        sc).callbackCalls.length = ls.length := by
  have hcalls :
      (runProcess tool arguments cbNever maxTime maxMemory sc).callbackCalls
        = ls := by
    rw [runProcess_eval tool arguments maxTime maxMemory sc hspawn]
    show (pySplitLines sc.streamData).map rstripNl = ls
    rw [hstream]
    have h := relay_writeLines ls hnl
    rw [relay_cbNever] at h
    exact congrArg Prod.fst h
  exact ⟨hcalls, by rw [hcalls]⟩

/-- Concrete scenario for C5: the test child printing 0..4 one per line. -/
def sc5 : Scenario :=
  ⟨true, writeLines [['0'], ['1'], ['2'], ['3'], ['4']], 0, [], 1, ksc0⟩

/-- C5 witness: the callback receives exactly the five lines 0..4, stripped,
in order. -/
theorem c5_callback_order_witness :
    (∀ l ∈ [['0'], ['1'], ['2'], ['3'], ['4']], '\n' ∉ l)
    ∧ (runProcess "echo-tool" [] cbNever 100 100 sc5).callbackCalls =
        [['0'], ['1'], ['2'], ['3'], ['4']] :=
  ⟨by decide,
   (c5_callback_order "echo-tool" [] 100 100 sc5
     [['0'], ['1'], ['2'], ['3'], ['4']] (by decide) rfl rfl).1⟩

/-- Concrete scenario for C6: a child that exits 0 immediately, within both
ceilings, wall-clock duration one half second. -/
def sc6 : Scenario := ⟨true, [], 0, [], 1 / 2, ksc0⟩

/-- C6, failing part evaluated at the failing input: the construction
completes without raising and the result carries the wall-clock elapsed time
and the watchdog peak, but its returncode attribute is the never-reassigned
class attribute -1, not the child's exit code 0 asserted by the claim (the
buffering twin variant does record proc.returncode; the streaming variant
omits the assignment). -/
theorem c6_success_returncode_bug :
    (runProcess "true-tool" [] cbNever 10 10 sc6).result = .ok ⟨-1, 1 / 2, 0⟩
    ∧ ((-1 : ℤ) ≠ 0) ∧ sc6.returncodeFinal = 0 := by
  refine ⟨?_, by decide, rfl⟩
  rw [runProcess_eval "true-tool" [] 10 10 sc6 rfl]
  rfl

/-- C7: for every execution that ends in the child's natural exit (the
watchdog finished and the exit code is 0, so construction succeeds), the
user_time the result reports is exactly the supervisor's wall-clock
measurement perf_counter() - before, the timestamp having been taken before
the spawn — not the watchdog's polling accumulation, which is overwritten. -/
theorem c7_wall_clock_authoritative (tool : String) (arguments : List String)
    (cbFNF : ℕ → Bool) (maxTime maxMemory : ℚ) (sc : Scenario)
    (r : RunSuccess)
    (h : (runProcess tool arguments cbFNF maxTime maxMemory sc).result =
      .ok r) :
    r.userTime = sc.wallTime := by
  obtain ⟨-, -, stF, -, rfl⟩ :=
    runProcess_ok_inv tool arguments cbFNF maxTime maxMemory sc r h
  rfl

/-- Concrete scenario for C7: one watchdog poll happened (accumulating the
polled approximation 1/10) but the reported time is the wall-clock 7/4. -/
def sc7 : Scenario := ⟨true, [], 0, [TickObs.sample 0], 7 / 4, ksc0⟩

/-- C7 witness: the result's user_time equals the wall-clock 7/4, not the
polled 1/10. -/
theorem c7_wall_clock_witness :
    (runProcess "fast-tool" [] cbNever 5 5 sc7).result = .ok ⟨-1, 7 / 4, 0⟩
    ∧ (⟨-1, 7 / 4, 0⟩ : RunSuccess).userTime = sc7.wallTime
    ∧ sc7.wallTime ≠ (1 : ℚ) / 10 := by
  have hres : (runProcess "fast-tool" [] cbNever 5 5 sc7).result =
      .ok ⟨-1, 7 / 4, 0⟩ := by
    rw [runProcess_eval "fast-tool" [] 5 5 sc7 rfl]
    norm_num [watchdogOf, enforce_limits, enforceTick, sc7]
  exact ⟨hres,
    c7_wall_clock_authoritative "fast-tool" [] cbNever 5 5 sc7 ⟨-1, 7 / 4, 0⟩
      hres,
    by norm_num [sc7]⟩

/-- C8: when the spawn fails because the executable does not exist, the
handler converts the FileNotFoundError raised by Popen into
ToolNotFoundError carrying the tool name, and nothing else has run: the
callback was never invoked and not a single watchdog poll happened. -/
theorem c8_tool_not_found (tool : String) (arguments : List String)
    (cbFNF : ℕ → Bool) (maxTime maxMemory : ℚ) (sc : Scenario)
    (h : sc.spawnOk = false) :
    runProcess tool arguments cbFNF maxTime maxMemory sc =
      ⟨.error (.toolNotFound tool), [], 0⟩ := by
  unfold runProcess
  rw [h]
  rfl

/-- Concrete scenario for C8: the spawn fails. -/
def sc8 : Scenario := ⟨false, [], 0, [], 0, ksc0⟩

/-- C8 witness: a missing tool yields ToolNotFoundError with no callback
invocation and zero polls. -/
theorem c8_tool_not_found_witness :
    sc8.spawnOk = false
    ∧ runProcess "missing-tool" ["x"] cbNever 1 1 sc8 =
        ⟨.error (.toolNotFound "missing-tool"), [], 0⟩ :=
  ⟨rfl, c8_tool_not_found "missing-tool" ["x"] cbNever 1 1 sc8 rfl⟩

/-- C9: within one execution the watchdog totals are monotonically
non-decreasing across successive polls; whatever it finally reports
dominates every total it observed — a natural finish reports exactly the
last totals, and a limit error carries the last corresponding total — and on
a successful run the result's peak equals the watchdog's final peak while
its user_time is the wall-clock measurement, which (the watchdog sleeps the
polling interval after each increment and the supervisor joins the thread
before measuring) is at least the final polled accumulation, taken here as
the hypothesis hwall since real time is outside the model. -/
theorem c9_monotone_accounting (tool : String) (arguments : List String)
    (maxTime maxMemory : ℚ) (sc : Scenario)
    (hwall : (lastState ⟨0, 0⟩
        (watchdogOf tool maxTime maxMemory sc).states).userTime ≤
      sc.wallTime) :
    List.Chain' stateLe
      (⟨0, 0⟩ :: (watchdogOf tool maxTime maxMemory sc).states)
    ∧ (∀ s ∈ (⟨0, 0⟩ : LimitState) ::
          (watchdogOf tool maxTime maxMemory sc).states,
        stateLe s
          (lastState ⟨0, 0⟩ (watchdogOf tool maxTime maxMemory sc).states))
    ∧ reportedOf
        (lastState ⟨0, 0⟩ (watchdogOf tool maxTime maxMemory sc).states)
        (watchdogOf tool maxTime maxMemory sc).outcome
    ∧ (∀ r : RunSuccess,
        (runProcess tool arguments cbNever maxTime maxMemory sc).result =
          .ok r →
        ∀ s ∈ (⟨0, 0⟩ : LimitState) ::
            (watchdogOf tool maxTime maxMemory sc).states,
          s.userTime ≤ r.userTime ∧ s.maxMemoryUsed ≤ r.maxMemoryUsed) := by
  have hchain := enforce_limits_chain tool maxTime maxMemory sc.ksc sc.ticks
    ⟨0, 0⟩
  have hbound := chain_le_lastState _ _ hchain
  have hrep := enforce_limits_reported tool maxTime maxMemory sc.ksc sc.ticks
    ⟨0, 0⟩
  refine ⟨hchain, hbound, hrep, ?_⟩
  intro r hr s hs
  obtain ⟨hsp, hrc0, stF, ho, rfl⟩ :=
    runProcess_ok_inv tool arguments cbNever maxTime maxMemory sc r hr
  have hlast : stF =
      lastState ⟨0, 0⟩ (watchdogOf tool maxTime maxMemory sc).states := by
    have h : reportedOf
        (lastState ⟨0, 0⟩ (watchdogOf tool maxTime maxMemory sc).states)
        (watchdogOf tool maxTime maxMemory sc).outcome := hrep
    rw [ho] at h
    exact h
  have hb := hbound s hs
  constructor
  · exact le_trans hb.1 hwall
  · show s.maxMemoryUsed ≤ stF.maxMemoryUsed
    rw [hlast]
    exact hb.2

/-- Concrete scenario for C9: one poll observing one MB, wall-clock one
second. -/
def sc9 : Scenario := ⟨true, [], 0, [TickObs.sample 1048576], 1, ksc0⟩

/-- C9 witness: the monotonicity theorem at the one-poll scenario, with the
wall-clock hypothesis discharged concretely. -/
theorem c9_monotone_witness :
    (lastState ⟨0, 0⟩ (watchdogOf "mon-tool" 5 100 sc9).states).userTime ≤
      sc9.wallTime
    ∧ List.Chain' stateLe
        (⟨0, 0⟩ :: (watchdogOf "mon-tool" 5 100 sc9).states) := by
  have hwall : (lastState ⟨0, 0⟩
      (watchdogOf "mon-tool" 5 100 sc9).states).userTime ≤ sc9.wallTime := by
    norm_num [watchdogOf, enforce_limits, enforceTick, lastState, sc9]
  exact ⟨hwall, (c9_monotone_accounting "mon-tool" [] 5 100 sc9 hwall).1⟩

/-- Concrete scenario for C10: the tool exists and spawns, the child prints
one line, and the caller's callback raises FileNotFoundError at its first
invocation. -/
def sc10 : Scenario := ⟨true, ['x', '\n'], 0, [], 1, ksc0⟩

/-- C10: there is an execution whose spawn succeeds and whose callback is
invoked, yet the construction raises ToolNotFoundError naming the tool: the
except FileNotFoundError handler wraps the whole body, so a
FileNotFoundError raised by the caller's read_stdout callback is converted
into ToolNotFoundError instead of propagating as the caller's own error. -/
theorem c10_callback_fnf_converted :
    ∃ (sc : Scenario) (cbFNF : ℕ → Bool),
      sc.spawnOk = true
      ∧ (runProcess "existing-tool" [] cbFNF 5 1000 sc).result =
          .error (.toolNotFound "existing-tool")
      ∧ (runProcess "existing-tool" [] cbFNF 5 1000 sc).callbackCalls ≠ [] := by
  refine ⟨sc10, fun _ => true, rfl, ?_, ?_⟩
  · rfl
  · decide
